import Mathlib

/-!
# Verification of the Case Closed contact-form backend

A shallow embedding of `src/case-closed-backend/server.js`: the sanitizer,
email validator, HTML escaper, the `POST /api/contact` handler, the CORS
origin decision, and the rate-limit configuration, together with theorems
settling the specification's claims about them.

Strings are modelled as Lean `String`/`List Char`; JavaScript values that may
be absent (`req.body?.x`, environment variables) are modelled as
`Option String`, with `none` for an absent value.  JavaScript string
truthiness (`!s`, `a || b`) is modelled explicitly.
-/

namespace CaseClosed

/-- `String(v || "")` for a possibly-absent string value: an absent value
becomes the empty string. -/
def toJSStr : Option String → String
  | none => ""
  | some s => s

/-- JavaScript string truthiness of a possibly-absent value: `undefined` and
`""` are falsy, every other string is truthy. -/
def truthy : Option String → Bool
  | none => false
  | some s => s ≠ ""

/-- `a || b` on possibly-absent strings. -/
def jsOr (a b : Option String) : Option String :=
  if truthy a then a else b

/-- The JavaScript whitespace class (`\s`, and the set removed by
`String.prototype.trim`), restricted to the characters relevant here:
space, tab, LF, VT, FF, CR, NBSP, BOM. -/
def isJSWs (c : Char) : Bool :=
  c = ' ' || c = '\t' || c = '\n' || c = Char.ofNat 11 || c = Char.ofNat 12 ||
  c = '\r' || c = Char.ofNat 160 || c = Char.ofNat 0xFEFF

/-- A carriage-return or line-feed character, the class `[\r\n]`. -/
def isCRLF (c : Char) : Bool :=
  c = '\r' || c = '\n'

/-- Worker for `collapseCRLF`: `inRun` records whether the previous character
was part of a CR/LF run (in which case the run's single replacement space has
already been emitted). -/
def collapseCRLFAux : Bool → List Char → List Char
  | _, [] => []
  | inRun, c :: rest =>
    if isCRLF c then
      if inRun then collapseCRLFAux true rest
      else ' ' :: collapseCRLFAux true rest
    else c :: collapseCRLFAux false rest

/-- `replace(/[\r\n]+/g, " ")`: each maximal run of CR/LF characters is
replaced by a single space. -/
def collapseCRLF (l : List Char) : List Char :=
  collapseCRLFAux false l

/-- `String.prototype.trim`: drop whitespace from both ends. -/
def jsTrim (l : List Char) : List Char :=
  (l.dropWhile isJSWs).rdropWhile isJSWs

/-- `sanitize` from server.js:
`String(str || "").replace(/[\r\n]+/g, " ").trim().slice(0, 4000)`. -/
def sanitize (v : Option String) : String :=
  String.mk ((jsTrim (collapseCRLF (toJSStr v).data)).take 4000)

/-- `sanitize` applied to a present string. -/
def sanitizeS (s : String) : String :=
  sanitize (some s)

/-- A character matched by the class `[^\s@]`: not whitespace and not `@`. -/
def isLc (c : Char) : Bool :=
  !(isJSWs c) && c != '@'

/-- Language semantics of the anchored regex `^[^\s@]+@[^\s@]+\.[^\s@]+$`:
the list matches iff it decomposes as `A ++ '@' :: B ++ '.' :: C` with
`A`, `B`, `C` nonempty runs of `[^\s@]` characters.  The search ranges over
the position `i` of the `@` and the position `j` of the matched `.`. -/
def isEmailList (l : List Char) : Bool :=
  (List.range l.length).any fun i =>
    (List.range l.length).any fun j =>
      decide (0 < i) && decide (i + 1 < j) && decide (j + 1 < l.length) &&
      (l.get? i == some '@') && (l.get? j == some '.') &&
      (l.take i).all isLc &&
      ((l.drop (i + 1)).take (j - i - 1)).all isLc &&
      (l.drop (j + 1)).all isLc

/-- `isEmail` from server.js:
`/^[^\s@]+@[^\s@]+\.[^\s@]+$/.test(String(str || "").trim())`. -/
def isEmail (s : String) : Bool :=
  isEmailList (jsTrim s.data)

/-- The acceptance condition claim **C4** ascribes to the validator: a
non-empty string containing no whitespace, exactly one `@`, and at least one
`.` somewhere after the `@`. -/
def specEmailShape (l : List Char) : Bool :=
  !(l.isEmpty) && l.all (fun c => !(isJSWs c)) && (l.count '@' == 1) &&
  ((l.dropWhile (fun c => c != '@')).drop 1).contains '.'

/-- `replaceAll` for a single-character pattern `c`, replacing each
occurrence by the string `r`. -/
def replaceAllChar (c : Char) (r : List Char) (l : List Char) : List Char :=
  l.flatMap fun x => if x = c then r else [x]

/-- `escapeHtml` from server.js: `String(str || "")` then `replaceAll` of
`&`, `<`, `>`, `"`, `'` by their HTML entities, in that order. -/
def escapeHtml (v : Option String) : String :=
  String.mk
    (replaceAllChar '\'' "&#039;".data
      (replaceAllChar '"' "&quot;".data
        (replaceAllChar '>' "&gt;".data
          (replaceAllChar '<' "&lt;".data
            (replaceAllChar '&' "&amp;".data (toJSStr v).data)))))

/-- `escapeHtml` applied to a present string. -/
def escapeHtmlS (s : String) : String :=
  escapeHtml (some s)

/-! ## The request, environment and handler model -/

/-- The fields of a `POST /api/contact` request the handler reads:
`req.body?.name/email/message`, `req.ip` and the `user-agent` header. -/
structure ContactRequest where
  name : Option String
  email : Option String
  message : Option String
  ip : String
  userAgent : Option String
  deriving Repr, DecidableEq

/-- The environment variables server.js reads. -/
structure Env where
  CONTACT_TO_EMAIL : Option String := none
  CONTACT_FROM_EMAIL : Option String := none
  SMTP_HOST : Option String := none
  SMTP_PORT : Option String := none
  SMTP_SECURE : Option String := none
  SMTP_USER : Option String := none
  SMTP_PASS : Option String := none
  ALLOWED_ORIGIN : Option String := none
  deriving Repr, DecidableEq

/-- The argument object of `transporter.sendMail`. -/
structure MailMessage where
  fromAddr : Option String
  toAddr : String
  subject : String
  text : String
  html : String
  replyTo : String
  deriving Repr, DecidableEq

/-- Outcome of the awaited `transporter.sendMail` call: the promise either
resolves or rejects with an error. -/
inductive SendOutcome where
  | ok : SendOutcome
  | err : String → SendOutcome
  deriving Repr, DecidableEq

/-- Observable result of one handler run: HTTP status, the `ok` flag and
optional `error` string of the JSON body, the `sendMail` invocations made,
and the `console.error` log entries produced. -/
structure HandlerResult where
  status : Nat
  bodyOk : Bool
  error : Option String
  sends : List MailMessage
  logs : List String
  deriving Repr, DecidableEq

def nameErrorMsg : String := "Please enter your name."

def emailErrorMsg : String := "Please enter a valid email."

def messageErrorMsg : String := "Please enter a longer message."

def toMissingMsg : String := "Server not configured: CONTACT_TO_EMAIL missing."

def genericFailureMsg : String := "Failed to send message."

def smtpConfigErrorMsg : String :=
  "Missing SMTP config. Set SMTP_HOST, SMTP_USER, SMTP_PASS (and optionally SMTP_PORT/SMTP_SECURE)."

/-- The name check of the handler: `!name || name.length < 2`. -/
def nameInvalid (name : String) : Bool :=
  name = "" || name.length < 2

/-- The email check of the handler: `!email || !isEmail(email)`. -/
def emailInvalid (email : String) : Bool :=
  email = "" || !(isEmail email)

/-- The message check of the handler: `!message || message.length < 10`. -/
def messageInvalid (message : String) : Bool :=
  message = "" || message.length < 10

/-- `req.get("user-agent") || "unknown"`. -/
def uaOr (ua : Option String) : String :=
  if truthy ua then toJSStr ua else "unknown"

/-- The plain-text mail body: the `text` array of server.js joined
with newlines.  Field values are embedded unescaped. -/
def buildText (name email message now ip ua : String) : String :=
  "New inquiry from the Case Closed website\n" ++
  "---------------------------------------\n" ++
  "Name: " ++ name ++ "\n" ++
  "Email: " ++ email ++ "\n" ++
  "\n" ++
  "Message:\n" ++
  message ++ "\n" ++
  "\n" ++
  "Sent at: " ++ now ++ "\n" ++
  "IP: " ++ ip ++ "\n" ++
  "User-Agent: " ++ ua

/-- The HTML template literal of server.js with the interpolation holes as
parameters; the handler fills every user-controlled hole with an
HTML-escaped value. -/
def htmlTemplate (en ee em now eip eua : String) : String :=
  "\n      <h2>New inquiry from the Case Closed website</h2>\n" ++
  "      <p><strong>Name:</strong> " ++ en ++ "<br/>\n" ++
  "         <strong>Email:</strong> " ++ ee ++ "</p>\n" ++
  "      <p><strong>Message:</strong></p>\n" ++
  "      <pre style=\"white-space:pre-wrap; font-family:Inter,system-ui,Arial; background:#f7f2ee; padding:12px; border-radius:10px; border:1px solid #e8d7cc;\">" ++
  em ++ "</pre>\n" ++
  "      <p style=\"color:#6b625c; font-size:12px;\">\n" ++
  "        Sent at " ++ now ++ " • IP " ++ eip ++ " • UA " ++ eua ++ "\n      </p>\n    "

/-- The `app.post("/api/contact")` handler of server.js, lines 103–178.
`now` stands for `new Date().toISOString()` and `outcome` for whether the
awaited `transporter.sendMail` resolves or rejects.  `createTransporter`
throwing on missing SMTP host/credentials is caught by the handler's
`try/catch`, which logs the error and answers the generic 500. -/
def contactHandler (env : Env) (req : ContactRequest) (now : String)
    (outcome : SendOutcome) : HandlerResult :=
  let name := sanitize req.name
  let email := sanitize req.email
  let message := sanitize req.message
  if nameInvalid name then
    ⟨400, false, some nameErrorMsg, [], []⟩
  else if emailInvalid email then
    ⟨400, false, some emailErrorMsg, [], []⟩
  else if messageInvalid message then
    ⟨400, false, some messageErrorMsg, [], []⟩
  else if !(truthy env.CONTACT_TO_EMAIL) then
    ⟨500, false, some toMissingMsg, [], []⟩
  else if !(truthy env.SMTP_HOST) || !(truthy env.SMTP_USER) || !(truthy env.SMTP_PASS) then
    ⟨500, false, some genericFailureMsg, [], [smtpConfigErrorMsg]⟩
  else
    let ua := uaOr req.userAgent
    let msg : MailMessage :=
      { fromAddr := jsOr env.CONTACT_FROM_EMAIL env.SMTP_USER
        toAddr := toJSStr env.CONTACT_TO_EMAIL
        subject := "Case Closed Inquiry — " ++ name
        text := buildText name email message now req.ip ua
        html := htmlTemplate (escapeHtmlS name) (escapeHtmlS email) (escapeHtmlS message)
          now (escapeHtmlS req.ip) (escapeHtmlS ua)
        replyTo := email }
    match outcome with
    | SendOutcome.ok => ⟨200, true, none, [msg], []⟩
    | SendOutcome.err e => ⟨500, false, some genericFailureMsg, [msg], [e]⟩

/-! ## CORS and rate limiting -/

/-- `ALLOWED_ORIGIN` parsed into a list (split on commas, trimmed, empties
dropped) — computed by server.js but never used by the CORS middleware. -/
def allowedOrigins (env : Env) : List String :=
  (((toJSStr env.ALLOWED_ORIGIN).splitOn ",").map
    (fun s => String.mk (jsTrim s.data))).filter (fun s => s ≠ "")

/-- The CORS origin decision of server.js: the `origin` option is the fixed
list `[/\.netlify\.app$/, "http://localhost:5500", "http://127.0.0.1:5500"]`,
so an origin is allowed iff it ends with `.netlify.app` or is one of the two
localhost origins.  The environment is a parameter only to express that the
decision never reads it. -/
def corsDecision (_env : Env) (origin : String) : Bool :=
  List.isSuffixOf ".netlify.app".data origin.data ||
  origin = "http://localhost:5500" || origin = "http://127.0.0.1:5500"

/-- `windowMs` of `contactLimiter`: 10 minutes. -/
def contactLimiterWindowMs : Nat := 10 * 60 * 1000

/-- `max` of `contactLimiter`: 20 requests per IP per window. -/
def contactLimiterMax : Nat := 20

/-- The ip and path of an incoming request, as seen by the middleware. -/
structure IncomingRequest where
  ip : String
  path : String
  deriving Repr, DecidableEq

/-- Number of earlier requests in the current window counted against `ip` by
the limiter mounted at `/api/contact`. -/
def priorContactCount (prior : List IncomingRequest) (ip : String) : Nat :=
  (prior.filter fun r => r.ip = ip && r.path = "/api/contact").length

/-- Modelled from the spec: the `express-rate-limit` middleware internals are
not part of this repository; per the spec it keeps a per-client-address
counter over a 10-minute window and rejects a request once the address has
exhausted its quota of `contactLimiterMax` requests in the window.  `prior`
lists the requests already handled in the current window; the middleware is
mounted only at `/api/contact`, so any other path is never limited. -/
def limiterAllows (prior : List IncomingRequest) (r : IncomingRequest) : Bool :=
  if r.path = "/api/contact" then
    priorContactCount prior r.ip < contactLimiterMax
  else true

/-! ## Test fixtures for the handler claims -/

/-- A request whose three fields sanitize to valid values. -/
def validReq : ContactRequest :=
  { name := some "Jo", email := some "jo@example.com",
    message := some "Hello, this is long enough.", ip := "203.0.113.7",
    userAgent := none }

/-- Relay credentials configured, recipient address unset. -/
def smtpOnlyEnv : Env :=
  { SMTP_HOST := some "smtp.example.com", SMTP_USER := some "user",
    SMTP_PASS := some "pass" }

/-- Recipient address and relay credentials all configured. -/
def fullEnv : Env :=
  { CONTACT_TO_EMAIL := some "team@caseclosed.example",
    SMTP_HOST := some "smtp.example.com", SMTP_USER := some "user",
    SMTP_PASS := some "pass" }

/-! ## Sanitizer lemmas -/

theorem collapseCRLFAux_no_crlf (l : List Char) :
    ∀ b, ∀ c ∈ collapseCRLFAux b l, isCRLF c = false := by
  induction l with
  | nil => simp [collapseCRLFAux]
  | cons a l ih =>
    intro b x hx
    by_cases ha : isCRLF a = true
    · rw [collapseCRLFAux, if_pos ha] at hx
      cases b with
      | true => exact ih true x hx
      | false =>
        rcases List.mem_cons.mp hx with rfl | hx
        · decide
        · exact ih true x hx
    · rw [collapseCRLFAux, if_neg ha] at hx
      rcases List.mem_cons.mp hx with rfl | hx
      · simpa using ha
      · exact ih false x hx

theorem collapseCRLF_no_crlf (l : List Char) :
    ∀ c ∈ collapseCRLF l, isCRLF c = false :=
  collapseCRLFAux_no_crlf l false

theorem collapseCRLF_eq_self {l : List Char} (h : ∀ c ∈ l, isCRLF c = false) :
    collapseCRLF l = l := by
  unfold collapseCRLF
  induction l with
  | nil => rfl
  | cons a l ih =>
    have ha : isCRLF a = false := h a (List.mem_cons_self a l)
    rw [collapseCRLFAux, if_neg (by simp [ha]),
      ih fun c hc => h c (List.mem_cons_of_mem a hc)]

theorem collapseCRLFAux_replicate_newline (n : Nat) :
    collapseCRLFAux true (List.replicate n '\n') = [] := by
  induction n with
  | zero => rfl
  | succ n ih => rw [List.replicate_succ, collapseCRLFAux, if_pos (by decide), ih]; rfl

theorem collapseCRLF_replicate_newline (n : Nat) :
    collapseCRLF (List.replicate (n + 1) '\n') = [' '] := by
  rw [collapseCRLF, List.replicate_succ, collapseCRLFAux, if_pos (by decide),
    collapseCRLFAux_replicate_newline]; rfl

theorem dropWhile_length_le {α : Type} (p : α → Bool) (l : List α) :
    (l.dropWhile p).length ≤ l.length := by
  induction l with
  | nil => simp [List.dropWhile]
  | cons a l ih =>
    by_cases h : p a
    · simpa [List.dropWhile_cons_of_pos h] using Nat.le_succ_of_le ih
    · simp [List.dropWhile_cons_of_neg h]

theorem dropWhile_prefix_eq_self {α : Type} {p : α → Bool} {u v : List α}
    (hv : v <+: u) (hu : u.dropWhile p = u) : v.dropWhile p = v := by
  cases v with
  | nil => rfl
  | cons a t =>
    obtain ⟨w, rfl⟩ := hv
    have ha : ¬ p a = true := by
      intro hpa
      rw [List.cons_append, List.dropWhile_cons_of_pos hpa] at hu
      have h1 := congrArg List.length hu
      have h2 := dropWhile_length_le p (t ++ w)
      rw [h1] at h2
      simp only [List.length_cons] at h2
      omega
    rw [List.dropWhile_cons_of_neg ha]

theorem jsTrim_idem (l : List Char) : jsTrim (jsTrim l) = jsTrim l := by
  unfold jsTrim
  rw [dropWhile_prefix_eq_self (List.rdropWhile_prefix _ _)
    (List.dropWhile_idempotent _ _), List.rdropWhile_idempotent]

theorem jsTrim_subset (l : List Char) : ∀ c ∈ jsTrim l, c ∈ l := by
  intro c hc
  unfold jsTrim at hc
  exact (List.dropWhile_suffix isJSWs).subset
    ((List.rdropWhile_prefix isJSWs _).subset hc)

theorem jsTrim_eq_self_of_ends {l : List Char}
    (h1 : ∀ hl : 0 < l.length, isJSWs (l.get ⟨0, hl⟩) = false)
    (h2 : ∀ hl : l ≠ [], isJSWs (l.getLast hl) = false) :
    jsTrim l = l := by
  unfold jsTrim
  rw [List.dropWhile_eq_self_iff.mpr fun hl => by
      have := h1 hl; simp only [List.get_eq_getElem] at this; simp [this],
    List.rdropWhile_eq_self_iff.mpr fun hl => by simp [h2 hl]]

theorem jsTrim_eq_self {l : List Char} (h : ∀ c ∈ l, isJSWs c = false) :
    jsTrim l = l :=
  jsTrim_eq_self_of_ends (fun hl => h _ (l.get_mem 0 hl))
    (fun hl => h _ (List.getLast_mem hl))

theorem jsTrim_cons_concat {a b : Char} {m : List Char}
    (ha : isJSWs a = false) (hb : isJSWs b = false) :
    jsTrim (a :: (m ++ [b])) = a :: (m ++ [b]) := by
  unfold jsTrim
  have hsplit : a :: (m ++ [b]) = (a :: m) ++ [b] := by simp
  rw [List.dropWhile_cons_of_neg (by simp [ha]), hsplit,
    List.rdropWhile_concat_neg isJSWs (a :: m) b (by simp [hb])]

theorem sanitize_no_crlf (v : Option String) :
    ∀ c ∈ (sanitize v).data, isCRLF c = false := by
  intro c hc
  unfold sanitize at hc
  simp only [String.data] at hc
  exact collapseCRLF_no_crlf _ c (jsTrim_subset _ c (List.mem_of_mem_take hc))

/-! ## Claim C3: the sanitizer -/

/-- **C3** (amended): for every input value, including an absent one,
`sanitize` returns the CR/LF-collapsed, trimmed text truncated to at most
4000 characters: the result contains no raw carriage-return or newline
character, has length at most 4000, has length exactly 4000 whenever the
collapsed and trimmed text is longer than 4000, and an absent input yields
the empty string. -/
theorem sanitize_correct (v : Option String) :
    (∀ c ∈ (sanitize v).data, c ≠ '\r' ∧ c ≠ '\n') ∧
    (sanitize v).length ≤ 4000 ∧
    (4000 < (jsTrim (collapseCRLF (toJSStr v).data)).length →
      (sanitize v).length = 4000) ∧
    sanitize none = "" := by
  refine ⟨fun c hc => ?_, ?_, fun h => ?_, rfl⟩
  · have h1 := sanitize_no_crlf v c hc
    simp only [isCRLF, Bool.or_eq_false_iff, decide_eq_false_iff_not] at h1
    exact h1
  · show ((jsTrim (collapseCRLF (toJSStr v).data)).take 4000).length ≤ 4000
    rw [List.length_take]
    exact Nat.min_le_left _ _
  · show ((jsTrim (collapseCRLF (toJSStr v).data)).take 4000).length = 4000
    rw [List.length_take]
    exact Nat.min_eq_left (Nat.le_of_lt h)

/-- Witness for `sanitize_correct`: an input of 4001 letters `a` passes the
truncation threshold and is cut to exactly 4000 characters. -/
theorem sanitize_correct_witness :
    4000 < (jsTrim (collapseCRLF
      (toJSStr (some (String.mk (List.replicate 4001 'a')))).data)).length ∧
    (sanitize (some (String.mk (List.replicate 4001 'a')))).length = 4000 := by
  have hkey : jsTrim (collapseCRLF
      (toJSStr (some (String.mk (List.replicate 4001 'a')))).data) =
      List.replicate 4001 'a' := by
    show jsTrim (collapseCRLF (List.replicate 4001 'a')) = _
    rw [collapseCRLF_eq_self fun c hc => by rw [List.eq_of_mem_replicate hc]; decide,
      jsTrim_eq_self fun c hc => by rw [List.eq_of_mem_replicate hc]; decide]
  refine ⟨by rw [hkey, List.length_replicate]; omega,
    (sanitize_correct _).2.2.1 (by rw [hkey, List.length_replicate]; omega)⟩

/-- Counterexample to **C3** as frozen: the claim asserts that any field
longer than 4000 characters is truncated to exactly 4000, but an input of
4001 newline characters (length 4001) sanitizes to the empty string — the
CR/LF run collapses to one space, which trimming then removes. -/
theorem sanitize_truncation_counterexample :
    (String.mk (List.replicate 4001 '\n')).length = 4001 ∧
    sanitize (some (String.mk (List.replicate 4001 '\n'))) = "" := by
  refine ⟨by show (List.replicate 4001 '\n').length = 4001; rw [List.length_replicate], ?_⟩
  show String.mk ((jsTrim (collapseCRLF (List.replicate 4001 '\n'))).take 4000) = ""
  rw [show (4001 : Nat) = 4000 + 1 from rfl, collapseCRLF_replicate_newline]
  rfl

/-! ## Claim C5: idempotence of the sanitizer -/

/-- **C5** (amended): sanitization is idempotent on every input whose
collapsed and trimmed text fits in the 4000-character bound (so whenever
truncation does not cut the string). -/
theorem sanitize_idem_of_no_truncation (s : String)
    (h : (jsTrim (collapseCRLF s.data)).length ≤ 4000) :
    sanitizeS (sanitizeS s) = sanitizeS s := by
  have h1 : sanitizeS s = String.mk (jsTrim (collapseCRLF s.data)) := by
    show String.mk ((jsTrim (collapseCRLF s.data)).take 4000) = _
    rw [List.take_of_length_le h]
  rw [h1]
  show String.mk ((jsTrim (collapseCRLF (jsTrim (collapseCRLF s.data)))).take 4000) =
    String.mk (jsTrim (collapseCRLF s.data))
  rw [collapseCRLF_eq_self fun c hc => collapseCRLF_no_crlf _ c (jsTrim_subset _ c hc),
    jsTrim_idem, List.take_of_length_le h]

/-- Witness for `sanitize_idem_of_no_truncation` at a small concrete input. -/
theorem sanitize_idem_of_no_truncation_witness :
    (jsTrim (collapseCRLF ("  a\nb  ").data)).length ≤ 4000 ∧
    sanitizeS (sanitizeS "  a\nb  ") = sanitizeS "  a\nb  " :=
  ⟨by decide, sanitize_idem_of_no_truncation _ (by decide)⟩

theorem boundary_no_crlf :
    ∀ c ∈ List.replicate 3999 'a' ++ [' ', 'b'], isCRLF c = false := by
  intro c hc
  rcases List.mem_append.mp hc with h | h
  · rw [List.eq_of_mem_replicate h]; decide
  · simp only [List.mem_cons, List.mem_singleton, List.not_mem_nil, or_false] at h
    rcases h with rfl | rfl <;> decide

theorem boundary_shape :
    List.replicate 3999 'a' ++ [' ', 'b'] =
      'a' :: ((List.replicate 3998 'a' ++ [' ']) ++ ['b']) := by
  rw [show (3999 : Nat) = 3998 + 1 from rfl, List.replicate_succ]
  simp only [List.cons_append, List.append_assoc, List.singleton_append, List.nil_append]

/-- First sanitization of the truncation-boundary input: the cut falls just
after the space, leaving a trailing space in the result. -/
theorem sanitizeS_boundary_first :
    sanitizeS (String.mk (List.replicate 3999 'a' ++ [' ', 'b'])) =
      String.mk (List.replicate 3999 'a' ++ [' ']) := by
  show String.mk
    ((jsTrim (collapseCRLF (List.replicate 3999 'a' ++ [' ', 'b']))).take 4000) = _
  rw [collapseCRLF_eq_self boundary_no_crlf, boundary_shape,
    jsTrim_cons_concat (by decide) (by decide), ← boundary_shape,
    List.take_append_eq_append_take,
    List.take_of_length_le (by rw [List.length_replicate]; omega),
    show 4000 - (List.replicate 3999 'a').length = 1 by rw [List.length_replicate]]
  rfl

theorem boundary2_no_crlf :
    ∀ c ∈ List.replicate 3999 'a' ++ [' '], isCRLF c = false := by
  intro c hc
  rcases List.mem_append.mp hc with h | h
  · rw [List.eq_of_mem_replicate h]; decide
  · simp only [List.mem_singleton] at h
    rw [h]; decide

theorem boundary2_shape :
    List.replicate 3999 'a' ++ [' '] = 'a' :: (List.replicate 3998 'a' ++ [' ']) := by
  rw [show (3999 : Nat) = 3998 + 1 from rfl, List.replicate_succ]
  simp only [List.cons_append, List.append_assoc, List.singleton_append, List.nil_append]

/-- Second sanitization of the truncation-boundary input: trimming removes
the trailing space the truncation exposed, shortening the string again. -/
theorem sanitizeS_boundary_second :
    sanitizeS (String.mk (List.replicate 3999 'a' ++ [' '])) =
      String.mk (List.replicate 3999 'a') := by
  show String.mk
    ((jsTrim (collapseCRLF (List.replicate 3999 'a' ++ [' ']))).take 4000) = _
  rw [collapseCRLF_eq_self boundary2_no_crlf]
  unfold jsTrim
  have hd : List.dropWhile isJSWs (List.replicate 3999 'a' ++ [' ']) =
      List.replicate 3999 'a' ++ [' '] := by
    conv_lhs => rw [boundary2_shape]
    rw [List.dropWhile_cons_of_neg (by decide), ← boundary2_shape]
  rw [hd, List.rdropWhile_concat_pos isJSWs (List.replicate 3999 'a') ' ' (by decide),
    List.rdropWhile_eq_self_iff.mpr fun hl => by
      have hm := List.getLast_mem hl
      rw [List.eq_of_mem_replicate hm]; decide,
    List.take_of_length_le (by rw [List.length_replicate]; omega)]

/-- Counterexample to **C5** as frozen: sanitization is not idempotent.  For
the 4001-character input `3999 × 'a', ' ', 'b'` the first pass truncates to
`3999 × 'a', ' '` (4000 characters, ending in a space) and the second pass
trims that trailing space away, giving a different, 3999-character string. -/
theorem sanitize_not_idempotent :
    sanitizeS (sanitizeS (String.mk (List.replicate 3999 'a' ++ [' ', 'b']))) ≠
      sanitizeS (String.mk (List.replicate 3999 'a' ++ [' ', 'b'])) := by
  rw [sanitizeS_boundary_first, sanitizeS_boundary_second]
  intro h
  have hlen : (List.replicate 3999 'a').length =
      (List.replicate 3999 'a' ++ [' ']).length :=
    congrArg (fun s => s.data.length) h
  rw [List.length_append, List.length_replicate] at hlen
  simp at hlen

/-! ## Claim C10: the HTML escaper -/

theorem mem_replaceAllChar {c a : Char} {r l : List Char}
    (h : c ∈ replaceAllChar a r l) : c ∈ r ∨ (c ∈ l ∧ c ≠ a) := by
  unfold replaceAllChar at h
  rcases List.mem_flatMap.mp h with ⟨x, hx, hcx⟩
  by_cases hxa : x = a
  · subst hxa
    rw [if_pos rfl] at hcx
    exact Or.inl hcx
  · rw [if_neg hxa] at hcx
    simp only [List.mem_singleton] at hcx
    subst hcx
    exact Or.inr ⟨hx, hxa⟩

theorem escapeHtml_data (v : Option String) :
    (escapeHtml v).data =
      replaceAllChar '\'' "&#039;".data
        (replaceAllChar '"' "&quot;".data
          (replaceAllChar '>' "&gt;".data
            (replaceAllChar '<' "&lt;".data
              (replaceAllChar '&' "&amp;".data (toJSStr v).data)))) := rfl

/-- **C10**: for every input value (including an absent one, which yields the
empty string), the escaped text contains no raw `<`, `>`, double-quote or
single-quote character: each such character of the input was replaced by its
HTML entity, and no replacement entity reintroduces one. -/
theorem escapeHtml_correct (v : Option String) :
    ('<' ∉ (escapeHtml v).data ∧ '>' ∉ (escapeHtml v).data ∧
      '"' ∉ (escapeHtml v).data ∧ '\'' ∉ (escapeHtml v).data) ∧
    escapeHtml none = "" := by
  refine ⟨⟨fun hmem => ?_, fun hmem => ?_, fun hmem => ?_, fun hmem => ?_⟩, rfl⟩
  · rw [escapeHtml_data] at hmem
    rcases mem_replaceAllChar hmem with h | ⟨h, _⟩
    · exact absurd h (by decide)
    rcases mem_replaceAllChar h with h | ⟨h, _⟩
    · exact absurd h (by decide)
    rcases mem_replaceAllChar h with h | ⟨h, _⟩
    · exact absurd h (by decide)
    rcases mem_replaceAllChar h with h | ⟨_, hne⟩
    · exact absurd h (by decide)
    · exact hne rfl
  · rw [escapeHtml_data] at hmem
    rcases mem_replaceAllChar hmem with h | ⟨h, _⟩
    · exact absurd h (by decide)
    rcases mem_replaceAllChar h with h | ⟨h, _⟩
    · exact absurd h (by decide)
    rcases mem_replaceAllChar h with h | ⟨_, hne⟩
    · exact absurd h (by decide)
    · exact hne rfl
  · rw [escapeHtml_data] at hmem
    rcases mem_replaceAllChar hmem with h | ⟨h, _⟩
    · exact absurd h (by decide)
    rcases mem_replaceAllChar h with h | ⟨_, hne⟩
    · exact absurd h (by decide)
    · exact hne rfl
  · rw [escapeHtml_data] at hmem
    rcases mem_replaceAllChar hmem with h | ⟨_, hne⟩
    · exact absurd h (by decide)
    · exact hne rfl

/-! ## Claim C2: validation order and first failure wins -/

/-- **C2**: the handler applies the checks to the sanitized fields in the
fixed order name, email, message; the first failing check answers 400 with
its own message, later checks are not consulted, and no `sendMail` call and
no log entry is made on any validation failure; the three messages are
pairwise distinct. -/
theorem validation_first_failure_wins (env : Env) (req : ContactRequest)
    (now : String) (outcome : SendOutcome) :
    (nameInvalid (sanitize req.name) = true →
      contactHandler env req now outcome =
        ⟨400, false, some nameErrorMsg, [], []⟩) ∧
    (nameInvalid (sanitize req.name) = false →
      emailInvalid (sanitize req.email) = true →
      contactHandler env req now outcome =
        ⟨400, false, some emailErrorMsg, [], []⟩) ∧
    (nameInvalid (sanitize req.name) = false →
      emailInvalid (sanitize req.email) = false →
      messageInvalid (sanitize req.message) = true →
      contactHandler env req now outcome =
        ⟨400, false, some messageErrorMsg, [], []⟩) ∧
    (nameErrorMsg ≠ emailErrorMsg ∧ nameErrorMsg ≠ messageErrorMsg ∧
      emailErrorMsg ≠ messageErrorMsg) := by
  refine ⟨fun h1 => ?_, fun h1 h2 => ?_, fun h1 h2 h3 => ?_, by decide, by decide, by decide⟩
  · simp only [contactHandler, h1, if_true]
  · simp only [contactHandler, h1, h2, if_true, Bool.false_eq_true, if_false]
  · simp only [contactHandler, h1, h2, h3, if_true, Bool.false_eq_true, if_false]

/-- Witness for `validation_first_failure_wins`: the spec example
`name="A"` (length 1) with otherwise-valid fields gets the name-specific 400
and the transport is not invoked. -/
theorem validation_first_failure_wins_witness :
    contactHandler fullEnv
      { name := some "A", email := some "jo@example.com",
        message := some "Hello, this is long enough.", ip := "203.0.113.7",
        userAgent := none } "2024-01-01T00:00:00.000Z" SendOutcome.ok =
      ⟨400, false, some nameErrorMsg, [], []⟩ :=
  (validation_first_failure_wins fullEnv _ _ _).1 (by decide)

/-! ## Claim C6: configuration errors -/

/-- **C6** (amended): with valid fields, a missing recipient address yields a
500 whose body carries the specific message naming `CONTACT_TO_EMAIL`, with
nothing logged and the transport not invoked; missing relay credentials
yield a 500 with the generic failure message, the root cause logged
server-side and the transport not invoked. -/
theorem config_error_handling (env : Env) (req : ContactRequest)
    (now : String) (outcome : SendOutcome)
    (hn : nameInvalid (sanitize req.name) = false)
    (he : emailInvalid (sanitize req.email) = false)
    (hm : messageInvalid (sanitize req.message) = false) :
    (truthy env.CONTACT_TO_EMAIL = false →
      contactHandler env req now outcome =
        ⟨500, false, some toMissingMsg, [], []⟩) ∧
    (truthy env.CONTACT_TO_EMAIL = true →
      (truthy env.SMTP_HOST = false ∨ truthy env.SMTP_USER = false ∨
        truthy env.SMTP_PASS = false) →
      contactHandler env req now outcome =
        ⟨500, false, some genericFailureMsg, [], [smtpConfigErrorMsg]⟩) := by
  constructor
  · intro hto
    simp only [contactHandler, hn, he, hm, hto, Bool.false_eq_true, if_false,
      Bool.not_false, if_true]
  · intro hto hcred
    simp only [contactHandler, hn, he, hm, hto, Bool.false_eq_true, if_false,
      Bool.not_true]
    rcases hcred with h | h | h <;>
      simp only [h, Bool.not_false, Bool.true_or, Bool.or_true, if_true]

/-- Witness for `config_error_handling`: valid input, relay credentials set,
recipient unset — the handler answers the specific 500 without sending. -/
theorem config_error_handling_witness :
    contactHandler smtpOnlyEnv validReq "2024-01-01T00:00:00.000Z" SendOutcome.ok =
      ⟨500, false, some toMissingMsg, [], []⟩ :=
  (config_error_handling smtpOnlyEnv validReq _ _ (by decide) (by decide)
    (by decide)).1 (by decide)

/-- Counterexample to **C6** as frozen: with valid fields and the recipient
unset, the 500 response exposes the root cause (`CONTACT_TO_EMAIL` missing)
to the client in a non-generic message, and nothing is logged server-side. -/
theorem config_error_counterexample :
    (contactHandler smtpOnlyEnv validReq "2024-01-01T00:00:00.000Z"
        SendOutcome.ok).logs = [] ∧
    (contactHandler smtpOnlyEnv validReq "2024-01-01T00:00:00.000Z"
        SendOutcome.ok).error = some toMissingMsg ∧
    toMissingMsg ≠ genericFailureMsg := by
  decide

/-! ## Claim C7: delivery failure -/

/-- **C7**: with valid fields and a fully configured transport, a rejected
send is caught: the handler answers 500 with the generic delivery-failure
message (a constant, independent of the error `e`, so the detailed error is
never in the client response), logs the detailed error server-side, and
invoked the send exactly once (no retry). -/
theorem delivery_failure_handling (env : Env) (req : ContactRequest)
    (now e : String)
    (hn : nameInvalid (sanitize req.name) = false)
    (he : emailInvalid (sanitize req.email) = false)
    (hm : messageInvalid (sanitize req.message) = false)
    (hto : truthy env.CONTACT_TO_EMAIL = true)
    (hh : truthy env.SMTP_HOST = true)
    (hu : truthy env.SMTP_USER = true)
    (hp : truthy env.SMTP_PASS = true) :
    (contactHandler env req now (SendOutcome.err e)).status = 500 ∧
    (contactHandler env req now (SendOutcome.err e)).error =
      some genericFailureMsg ∧
    (contactHandler env req now (SendOutcome.err e)).logs = [e] ∧
    (contactHandler env req now (SendOutcome.err e)).sends.length = 1 := by
  simp only [contactHandler, hn, he, hm, hto, hh, hu, hp, Bool.false_eq_true,
    if_false, Bool.not_true, Bool.or_self, Bool.or_false, Bool.false_or]
  exact ⟨trivial, trivial, trivial, rfl⟩

/-- Witness for `delivery_failure_handling` at a concrete request and error. -/
theorem delivery_failure_handling_witness :
    (contactHandler fullEnv validReq "2024-01-01T00:00:00.000Z"
        (SendOutcome.err "relay unreachable")).status = 500 ∧
    (contactHandler fullEnv validReq "2024-01-01T00:00:00.000Z"
        (SendOutcome.err "relay unreachable")).error = some genericFailureMsg ∧
    (contactHandler fullEnv validReq "2024-01-01T00:00:00.000Z"
        (SendOutcome.err "relay unreachable")).logs = ["relay unreachable"] ∧
    (contactHandler fullEnv validReq "2024-01-01T00:00:00.000Z"
        (SendOutcome.err "relay unreachable")).sends.length = 1 :=
  delivery_failure_handling fullEnv validReq _ _ (by decide) (by decide)
    (by decide) (by decide) (by decide) (by decide) (by decide)

/-! ## Claim C1: the success path -/

/-- **C1** (amended): with valid sanitized fields, the recipient address and
the relay credentials configured, and the send resolving, the handler
answers 200 with `ok:true`, having invoked `sendMail` exactly once, with the
HTML body built by filling the template with HTML-escaped field values, the
plain-text body built from the unescaped values, and the reply-to address
set to the sanitized email of the submitter. -/
theorem contact_success (env : Env) (req : ContactRequest) (now : String)
    (hn : nameInvalid (sanitize req.name) = false)
    (he : emailInvalid (sanitize req.email) = false)
    (hm : messageInvalid (sanitize req.message) = false)
    (hto : truthy env.CONTACT_TO_EMAIL = true)
    (hh : truthy env.SMTP_HOST = true)
    (hu : truthy env.SMTP_USER = true)
    (hp : truthy env.SMTP_PASS = true) :
    contactHandler env req now SendOutcome.ok =
      ⟨200, true, none,
        [{ fromAddr := jsOr env.CONTACT_FROM_EMAIL env.SMTP_USER,
           toAddr := toJSStr env.CONTACT_TO_EMAIL,
           subject := "Case Closed Inquiry — " ++ sanitize req.name,
           text := buildText (sanitize req.name) (sanitize req.email)
             (sanitize req.message) now req.ip (uaOr req.userAgent),
           html := htmlTemplate (escapeHtmlS (sanitize req.name))
             (escapeHtmlS (sanitize req.email))
             (escapeHtmlS (sanitize req.message)) now (escapeHtmlS req.ip)
             (escapeHtmlS (uaOr req.userAgent)),
           replyTo := sanitize req.email }], []⟩ := by
  simp only [contactHandler, hn, he, hm, hto, hh, hu, hp, Bool.false_eq_true,
    if_false, Bool.not_true, Bool.or_self, Bool.or_false, Bool.false_or]

/-- Witness for `contact_success`: the spec example request succeeds with
reply-to set to the submitter address. -/
theorem contact_success_witness :
    contactHandler fullEnv validReq "2024-01-01T00:00:00.000Z" SendOutcome.ok =
      ⟨200, true, none,
        [{ fromAddr := jsOr fullEnv.CONTACT_FROM_EMAIL fullEnv.SMTP_USER,
           toAddr := toJSStr fullEnv.CONTACT_TO_EMAIL,
           subject := "Case Closed Inquiry — " ++ sanitize validReq.name,
           text := buildText (sanitize validReq.name) (sanitize validReq.email)
             (sanitize validReq.message) "2024-01-01T00:00:00.000Z" validReq.ip
             (uaOr validReq.userAgent),
           html := htmlTemplate (escapeHtmlS (sanitize validReq.name))
             (escapeHtmlS (sanitize validReq.email))
             (escapeHtmlS (sanitize validReq.message)) "2024-01-01T00:00:00.000Z"
             (escapeHtmlS validReq.ip) (escapeHtmlS (uaOr validReq.userAgent)),
           replyTo := sanitize validReq.email }], []⟩ :=
  contact_success fullEnv validReq _ (by decide) (by decide) (by decide)
    (by decide) (by decide) (by decide) (by decide)

/-- Counterexample to **C1** as frozen: valid fields and the recipient
address configured do not suffice — with `SMTP_USER` unset the handler
answers 500 and never invokes the transport, instead of the claimed 200 with
one send. -/
theorem contact_success_counterexample :
    (contactHandler
        { CONTACT_TO_EMAIL := some "team@caseclosed.example",
          SMTP_HOST := some "smtp.example.com", SMTP_PASS := some "pass" }
        validReq "2024-01-01T00:00:00.000Z" SendOutcome.ok).status = 500 ∧
    (contactHandler
        { CONTACT_TO_EMAIL := some "team@caseclosed.example",
          SMTP_HOST := some "smtp.example.com", SMTP_PASS := some "pass" }
        validReq "2024-01-01T00:00:00.000Z" SendOutcome.ok).sends = [] := by
  decide

/-! ## Claim C8: rate limiting -/

theorem filter_replicate_of_pos {α : Type} {p : α → Bool} {a : α}
    (h : p a = true) (n : Nat) :
    (List.replicate n a).filter p = List.replicate n a := by
  induction n with
  | zero => rfl
  | succ n ih => rw [List.replicate_succ, List.filter_cons_of_pos h, ih]

theorem priorContactCount_replicate (ip : String) (n : Nat) :
    priorContactCount
      (List.replicate n { ip := ip, path := "/api/contact" }) ip = n := by
  unfold priorContactCount
  rw [filter_replicate_of_pos (by simp), List.length_replicate]

/-- **C8**: only the `/api/contact` path is rate-limited, at 20 requests per
client address per 10-minute window: after 19 earlier requests in the window
the 20th from the same address is still allowed, after 20 the 21st is
rejected by the limiter (so it never reaches the contact handler), and a
request to any other path is never limited. -/
theorem rate_limit_window (ip : String) (prior : List IncomingRequest)
    (r : IncomingRequest) (hr : r.path ≠ "/api/contact") :
    contactLimiterWindowMs = 10 * 60 * 1000 ∧
    limiterAllows (List.replicate 19 { ip := ip, path := "/api/contact" })
      { ip := ip, path := "/api/contact" } = true ∧
    limiterAllows (List.replicate 20 { ip := ip, path := "/api/contact" })
      { ip := ip, path := "/api/contact" } = false ∧
    limiterAllows prior r = true := by
  refine ⟨rfl, ?_, ?_, ?_⟩
  · unfold limiterAllows
    rw [if_pos rfl, priorContactCount_replicate]
    decide
  · unfold limiterAllows
    rw [if_pos rfl, priorContactCount_replicate]
    decide
  · unfold limiterAllows
    rw [if_neg hr]

/-- Witness for `rate_limit_window`: a health-check request from a client
that has exhausted its quota is still allowed. -/
theorem rate_limit_window_witness :
    limiterAllows
      (List.replicate 19 { ip := "203.0.113.7", path := "/api/contact" })
      { ip := "203.0.113.7", path := "/api/contact" } = true ∧
    limiterAllows
      (List.replicate 20 { ip := "203.0.113.7", path := "/api/contact" })
      { ip := "203.0.113.7", path := "/api/contact" } = false ∧
    limiterAllows
      (List.replicate 20 { ip := "203.0.113.7", path := "/api/contact" })
      { ip := "203.0.113.7", path := "/health" } = true := by
  have h := rate_limit_window "203.0.113.7"
    (List.replicate 20 { ip := "203.0.113.7", path := "/api/contact" })
    { ip := "203.0.113.7", path := "/health" } (by decide)
  exact ⟨h.2.1, h.2.2.1, h.2.2.2⟩

/-! ## Claim C9: the CORS origin decision -/

/-- **C9**: the CORS origin decision never reads `ALLOWED_ORIGIN` — two
environments differing only in that variable accept and reject exactly the
same origins — and the enforced allow-list is exactly: any origin ending in
`.netlify.app`, plus `http://localhost:5500` and `http://127.0.0.1:5500`. -/
theorem cors_ignores_allowed_origin (env : Env) (v : Option String)
    (origin : String) :
    corsDecision { env with ALLOWED_ORIGIN := v } origin =
      corsDecision env origin ∧
    (corsDecision env origin = true ↔
      (List.isSuffixOf ".netlify.app".data origin.data = true ∨
        origin = "http://localhost:5500" ∨ origin = "http://127.0.0.1:5500")) := by
  refine ⟨rfl, ?_⟩
  unfold corsDecision
  simp only [Bool.or_eq_true, decide_eq_true_eq, List.isSuffixOf_iff_suffix, or_assoc]

/-! ## Claim C4: the email validator -/

/-- The regex `^[^\s@]+@[^\s@]+\.[^\s@]+$` accepts exactly the lists that
decompose as local part, `@`, and a domain with an interior dot, all three
runs non-empty and free of whitespace and `@`. -/
theorem isEmailList_iff (l : List Char) :
    isEmailList l = true ↔
      ∃ A B C : List Char,
        l = A ++ '@' :: (B ++ '.' :: C) ∧ A ≠ [] ∧ B ≠ [] ∧ C ≠ [] ∧
        (∀ c ∈ A, isLc c = true) ∧ (∀ c ∈ B, isLc c = true) ∧
        (∀ c ∈ C, isLc c = true) := by
  constructor
  · intro h
    unfold isEmailList at h
    rw [List.any_eq_true] at h
    obtain ⟨i, hi, h⟩ := h
    rw [List.any_eq_true] at h
    obtain ⟨j, hj, h⟩ := h
    rw [List.mem_range] at hi hj
    simp only [Bool.and_eq_true, decide_eq_true_eq, beq_iff_eq,
      List.all_eq_true, and_assoc] at h
    obtain ⟨h0i, hij, hjl, hgi, hgj, hA, hB, hC⟩ := h
    rw [List.get?_eq_some] at hgi hgj
    obtain ⟨hi2, hgi⟩ := hgi
    obtain ⟨hj2, hgj⟩ := hgj
    rw [List.get_eq_getElem] at hgi hgj
    refine ⟨l.take i, (l.drop (i + 1)).take (j - i - 1), l.drop (j + 1),
      ?_, ?_, ?_, ?_, hA, hB, hC⟩
    · conv_lhs => rw [← List.take_append_drop i l]
      rw [List.drop_eq_getElem_cons hi2, hgi]
      congr 2
      conv_lhs => rw [← List.take_append_drop (j - i - 1) (l.drop (i + 1))]
      congr 1
      rw [List.drop_drop]
      have hj3 : i + 1 + (j - i - 1) = j := by omega
      rw [hj3, List.drop_eq_getElem_cons hj2, hgj]
    · intro h0
      have := congrArg List.length h0
      simp only [List.length_take, List.length_nil] at this
      rcases Nat.min_eq_zero_iff.mp this with h | h <;> omega
    · intro h0
      have := congrArg List.length h0
      simp only [List.length_take, List.length_drop, List.length_nil] at this
      rcases Nat.min_eq_zero_iff.mp this with h | h <;> omega
    · intro h0
      have := congrArg List.length h0
      simp only [List.length_drop, List.length_nil] at this
      omega
  · rintro ⟨A, B, C, rfl, hA, hB, hC, hAl, hBl, hCl⟩
    have hAp : 0 < A.length := List.length_pos.mpr hA
    have hBp : 0 < B.length := List.length_pos.mpr hB
    have hCp : 0 < C.length := List.length_pos.mpr hC
    have hlen : (A ++ '@' :: (B ++ '.' :: C)).length =
        A.length + B.length + C.length + 2 := by
      simp only [List.length_append, List.length_cons]
      omega
    unfold isEmailList
    rw [List.any_eq_true]
    refine ⟨A.length, by rw [List.mem_range, hlen]; omega, ?_⟩
    rw [List.any_eq_true]
    refine ⟨A.length + 1 + B.length, by rw [List.mem_range, hlen]; omega, ?_⟩
    simp only [Bool.and_eq_true, decide_eq_true_eq, beq_iff_eq,
      List.all_eq_true, and_assoc]
    refine ⟨hAp, by omega, by rw [hlen]; omega, ?_, ?_, ?_, ?_, ?_⟩
    · rw [List.get?_append_right (Nat.le_refl _), Nat.sub_self,
        List.get?_cons_zero]
    · rw [List.get?_append_right (by omega),
        show A.length + 1 + B.length - A.length = B.length + 1 by omega,
        List.get?_cons_succ, List.get?_append_right (Nat.le_refl _),
        Nat.sub_self, List.get?_cons_zero]
    · rw [List.take_left]
      exact hAl
    · intro x hx
      rw [show A.length + 1 = A.length + 1 from rfl, List.drop_append 1] at hx
      have hd1 : ('@' :: (B ++ '.' :: C)).drop 1 = B ++ '.' :: C := rfl
      rw [hd1, show A.length + 1 + B.length - A.length - 1 = B.length by omega,
        List.take_left] at hx
      exact hBl x hx
    · intro x hx
      rw [show A.length + 1 + B.length + 1 = A.length + (B.length + 2) by omega,
        List.drop_append (B.length + 2)] at hx
      have hd2 : ('@' :: (B ++ '.' :: C)).drop (B.length + 2) =
          (B ++ '.' :: C).drop (B.length + 1) := rfl
      rw [hd2, show B.length + 1 = B.length + 1 from rfl] at hx
      rw [show (B ++ '.' :: C).drop (B.length + 1) = ('.' :: C).drop 1 from
        (by rw [← List.drop_append 1]), List.drop_one, List.tail_cons] at hx
      exact hCl x hx

/-- **C4** (amended): the validator accepts exactly the strings whose trimmed
text splits as a non-empty run of non-whitespace, non-`@` characters, then
`@`, then a domain part that itself splits as non-empty run, `.`, non-empty
run — i.e. exactly one `@` preceded by at least one character, and after the
`@` a `.` with at least one character strictly between `@` and that `.` and
at least one character after it. -/
theorem isEmail_iff (s : String) :
    isEmail s = true ↔
      ∃ A B C : List Char,
        jsTrim s.data = A ++ '@' :: (B ++ '.' :: C) ∧ A ≠ [] ∧ B ≠ [] ∧ C ≠ [] ∧
        (∀ c ∈ A, isLc c = true) ∧ (∀ c ∈ B, isLc c = true) ∧
        (∀ c ∈ C, isLc c = true) :=
  isEmailList_iff (jsTrim s.data)

/-- Counterexample to **C4** as frozen: `"a@.b"` is sanitized-stable, has
exactly one `@`, a `.` after it and no whitespace — the claimed shape — yet
the validator rejects it, because the regex demands a non-empty run of
characters strictly between the `@` and the `.`. -/
theorem isEmail_shape_counterexample :
    sanitizeS "a@.b" = "a@.b" ∧ specEmailShape "a@.b".data = true ∧
    isEmail "a@.b" = false := by
  decide

end CaseClosed
